import Mathlib

/-!
Verification development for the pypdf core (commit0-fillin variant).

Shallow embedding conventions:
* Python bytes are modelled as List Nat (each element a byte value).
* Python float scalars in the content-stream engine are modelled as exact
  rationals (Rat); all operations used on them are ring operations.
* Python exceptions are modelled with Except over explicit error kinds.
* Unbounded while loops are modelled with an explicit fuel argument; fuel
  exhaustion is a distinguished result that corresponds to the loop still
  running after that many iterations.
-/

namespace PyPdf

/-- Error kinds surfaced by the embedded code.  Each constructor corresponds
to a concrete Python exception raised (or propagated) by the source:
pdfReadError and pdfStreamError to the library's own error classes,
typeError, keyError, indexError, attributeError and valueError to the
built-in exceptions of the same names, and notImplementedError to
NotImplementedError. -/
inductive PdfErr where
  | pdfReadError
  | pdfStreamError
  | typeError
  | keyError
  | indexError
  | attributeError
  | valueError
  | notImplementedError
deriving DecidableEq, Repr

/-- Decidable equality for Except results, so that concrete decoder runs
can be checked by decide. -/
instance exceptDecEq {ε α : Type} [DecidableEq ε] [DecidableEq α] :
    DecidableEq (Except ε α) := fun x y =>
  match x, y with
  | .ok a, .ok b =>
    if h : a = b then .isTrue (by rw [h])
    else .isFalse (by intro hc; cases hc; exact h rfl)
  | .error a, .error b =>
    if h : a = b then .isTrue (by rw [h])
    else .isFalse (by intro hc; cases hc; exact h rfl)
  | .ok _, .error _ => .isFalse (by intro hc; cases hc)
  | .error _, .ok _ => .isFalse (by intro hc; cases hc)

/-! ## RunLengthDecode (pypdf/filters.py, RunLengthDecode.decode)

The source walks the input with an index i: a length byte below 128 copies
the next length+1 literal bytes and advances i by length+2; a length byte
above 128 repeats the single following byte 257-length times and advances i
by 2; the byte 128 ends decoding.  Reading past the end of the data while
fetching the repeated byte raises IndexError, which the source converts to
PdfStreamError.  The index walk is modelled by consuming the list from the
front; the fuel argument bounds the number of loop iterations (each
iteration consumes at least one byte, so the length of the data is always
enough fuel). -/

def run_length_go : Nat → List Nat → Except PdfErr (List Nat)
  | 0, _ => .ok []
  | _ + 1, [] => .ok []
  | fuel + 1, l :: rest =>
    if l = 128 then .ok []
    else if l < 128 then
      match run_length_go fuel (rest.drop (l + 1)) with
      | .ok tail => .ok (rest.take (l + 1) ++ tail)
      | .error e => .error e
    else
      match rest with
      | [] => .error .pdfStreamError
      | b :: rest2 =>
        match run_length_go fuel rest2 with
        | .ok tail => .ok (List.replicate (257 - l) b ++ tail)
        | .error e => .error e

/-- RunLengthDecode.decode: run the loop with enough fuel for the whole
input. -/
def run_length_decode (data : List Nat) : Except PdfErr (List Nat) :=
  run_length_go data.length data

/-! ## FlateDecode._decode_predictor (pypdf/filters.py)

The source receives the inflated data as an immutable Python bytes object.
Both the TIFF branch (predictor 2) and the PNG Sub branch (filter type 1)
slice a row out of that bytes object and then assign into the slice: in
CPython a slice of bytes is again bytes, and item assignment on bytes
raises TypeError.  The assignment loop runs for j in range(colors,
len(row)), so the TypeError fires exactly when that range is nonempty,
i.e. when colors < len(row).  PNG rows whose filter type byte is neither 0
nor 1 fall through every branch and are simply not appended to the output.
Predictor values other than 2 and 10..15 raise PdfReadError. -/

def predictor_row_update (colors : Int) (row : List Nat) : Except PdfErr (List Nat) :=
  if colors < (row.length : Int) then .error .typeError else .ok row

def tiff_rows (colors : Int) (row_size : Nat) : Nat → List Nat → Except PdfErr (List Nat)
  | 0, _ => .ok []
  | _ + 1, [] => .ok []
  | fuel + 1, x :: xs =>
    match predictor_row_update colors ((x :: xs).take row_size) with
    | .error e => .error e
    | .ok row =>
      match tiff_rows colors row_size fuel ((x :: xs).drop row_size) with
      | .ok out => .ok (row ++ out)
      | .error e => .error e

def png_rows (colors : Int) (row_size : Nat) : Nat → List Nat → Except PdfErr (List Nat)
  | 0, _ => .ok []
  | _ + 1, [] => .ok []
  | fuel + 1, ft :: xs =>
    let row := xs.take (row_size - 1)
    let step := png_rows colors row_size fuel ((ft :: xs).drop row_size)
    if ft = 0 then
      match step with
      | .ok out => .ok (row ++ out)
      | .error e => .error e
    else if ft = 1 then
      match predictor_row_update colors row with
      | .error e => .error e
      | .ok row2 =>
        match step with
        | .ok out => .ok (row2 ++ out)
        | .error e => .error e
    else
      step

/-- FlateDecode._decode_predictor. Row sizes follow the source: the TIFF
branch uses ceil(columns*colors*bits_per_component/8) and the PNG branch
uses columns*colors*bits_per_component//8 + 1 (floor division, the extra
byte being the per-row filter type).  A nonpositive row advance would make
the Python range() step invalid, which cannot happen for the positive
parameters the theorems use; it is mapped to ValueError. -/
def decode_predictor (data : List Nat) (predictor columns colors bits_per_component : Int) :
    Except PdfErr (List Nat) :=
  if predictor = 2 then
    let row_size : Int := (columns * colors * bits_per_component + 7).fdiv 8
    if row_size ≤ 0 then .error .valueError
    else tiff_rows colors row_size.toNat data.length data
  else if 10 ≤ predictor ∧ predictor ≤ 15 then
    let row_size : Int := (columns * colors * bits_per_component).fdiv 8 + 1
    if row_size ≤ 0 then .error .valueError
    else png_rows colors row_size.toNat data.length data
  else .error .pdfReadError

/-! ## LZWDecode (pypdf/filters.py, LZWDecode.Decoder)

State of the decoder: the input bytes plus a byte/bit read position, the
code dictionary (a 4096-slot table preinitialised with the 256 single-byte
strings and empty strings elsewhere, modelled as a total function that is
empty above the initialised entries), the count of live dictionary entries
and the current code width in bits.  Codes 256 (CLEARDICT) and 257 (STOP)
are control codes; reset_dict sets the live count to 258 and the width to
9 bits. -/

structure LZWState where
  data : List Nat
  bytepos : Nat
  bitpos : Nat
  dict : Nat → List Nat
  dict_size : Nat
  curr_code_size : Nat

/-- Decoder.__init__ followed by the initial reset_dict call. -/
def lzw_init (data : List Nat) : LZWState :=
  { data := data
    bytepos := 0
    bitpos := 0
    dict := fun i => if i < 256 then [i] else []
    dict_size := 258
    curr_code_size := 9 }

/-- Decoder.reset_dict. -/
def lzw_reset_dict (s : LZWState) : LZWState :=
  { s with dict_size := 258, curr_code_size := 9 }

/-- Decoder.add_code_to_dict: store the new string at the next free slot and
bump the code width when the table reaches 512, 1024 or 2048 entries. -/
def lzw_add_code (s : LZWState) (newstring : List Nat) : LZWState :=
  { s with
    dict := fun i => if i = s.dict_size then newstring else s.dict i
    dict_size := s.dict_size + 1
    curr_code_size :=
      if s.dict_size + 1 = 512 then 10
      else if s.dict_size + 1 = 1024 then 11
      else if s.dict_size + 1 = 2048 then 12
      else s.curr_code_size }

/-- Decoder.get_next_code's bit-filling loop.  Each iteration consumes
min (8 - bitpos) fillbits bits from the current byte, so fillbits itself is
enough fuel: the loop runs at most fillbits times because every reachable
iteration has bitpos < 8 and consumes at least one bit.  Reading past the
end of the data raises PdfReadError (missing stop code) in the source. -/
def lzw_next_code_go (data : List Nat) :
    Nat → Nat → Nat → Nat → Nat → Except PdfErr (Nat × Nat × Nat)
  | 0, _, bytepos, bitpos, value => .ok (value, bytepos, bitpos)
  | fuel + 1, fillbits, bytepos, bitpos, value =>
    if fillbits = 0 then .ok (value, bytepos, bitpos)
    else if data.length ≤ bytepos then .error .pdfReadError
    else
      let nextbits := data.getD bytepos 0
      let bitsfromhere := min (8 - bitpos) fillbits
      let value2 :=
        value ||| (((nextbits >>> (8 - bitpos - bitsfromhere)) &&& (255 >>> (8 - bitsfromhere)))
          <<< (fillbits - bitsfromhere))
      let bitpos2 := bitpos + bitsfromhere
      if 8 ≤ bitpos2 then
        lzw_next_code_go data fuel (fillbits - bitsfromhere) (bytepos + 1) 0 value2
      else
        lzw_next_code_go data fuel (fillbits - bitsfromhere) bytepos bitpos2 value2

/-- Decoder.get_next_code: read curr_code_size bits, returning the code and
the updated read position. -/
def lzw_next_code (s : LZWState) : Except PdfErr (Nat × LZWState) :=
  match lzw_next_code_go s.data s.curr_code_size s.curr_code_size s.bytepos s.bitpos 0 with
  | .ok (v, bp, bip) => .ok (v, { s with bytepos := bp, bitpos := bip })
  | .error e => .error e

/-- Outcome of the main decode loop: a decoded byte string, a raised Python
exception, or fuel exhaustion (the loop still running after that many
iterations). -/
inductive LZWOut where
  | ok (bytes : List Nat)
  | err (e : PdfErr)
  | fuelOut
deriving DecidableEq, Repr

/-- Decoder.decode's main loop.  STOP (257) ends decoding; CLEARDICT (256)
resets the table and reads the next code directly; any other code cW looks
up dict[cW] (always in range, since a 12-bit code is below the table size
4096, so the source's IndexError handler for the lookup is dead code),
appends it to the output, and registers dict[old] + s[0] as a new entry.
When dict[cW] is the empty string, evaluating s[0] raises an uncaught
IndexError. -/
def lzw_loop (fuel : Nat) (s : LZWState) (old : Nat) (result : List Nat) : LZWOut :=
  match fuel with
  | 0 => .fuelOut
  | fuel + 1 =>
    match lzw_next_code s with
    | .error e => .err e
    | .ok (cW, s1) =>
      if cW = 257 then .ok result
      else if cW = 256 then
        let s2 := lzw_reset_dict s1
        match lzw_next_code s2 with
        | .error e => .err e
        | .ok (cW2, s3) => lzw_loop fuel s3 cW2 (result ++ s3.dict cW2)
      else
        match s1.dict cW with
        | [] => .err .indexError
        | c :: cs =>
          lzw_loop fuel (lzw_add_code s1 (s1.dict old ++ [c])) cW (result ++ c :: cs)

/-- Decoder.decode: read the first code, seed the output with its dictionary
entry, then run the main loop. -/
def lzw_decode (fuel : Nat) (data : List Nat) : LZWOut :=
  let s0 := lzw_init data
  match lzw_next_code s0 with
  | .error e => .err e
  | .ok (cW, s1) => lzw_loop fuel s1 cW (s1.dict cW)

/-- Iterate add_code_to_dict (with a fixed one-byte string) k times, to
observe how dict_size and curr_code_size evolve. -/
def lzw_addN : Nat → LZWState → LZWState
  | 0, s => s
  | k + 1, s => lzw_addN k (lzw_add_code s [0])

/-- The code width the table uses once it holds n entries, as implemented:
9 bits below 512 entries,10 below 1024, 11 below 2048, and 12 from 2048 on. -/
def lzw_width_of (n : Nat) : Nat :=
  if n < 512 then 9 else if n < 1024 then 10 else if n < 2048 then 11 else 12

/-! ## decode_stream_data (pypdf/filters.py)

The source normalises the /Filter entry to a list of filter name strings
and /DecodeParms to a list of parameter dictionaries, then folds the
filters left to right over the raw stream data.  The fold is embedded
below over the normalised lists.  The individual codecs are passed in as
functions (FlateDecode and LZWDecode receive the i-th parameter dictionary
when one exists): the dispatch itself is what is under test, and it holds
for every choice of codec behaviour, in particular for the codecs embedded
elsewhere in this file.  P is the type of a parameter dictionary. -/

def decode_stream_loop {P : Type}
    (flateD lzwD : List Nat → Option P → Except PdfErr (List Nat))
    (hexD rlD a85D : List Nat → Except PdfErr (List Nat)) :
    List String → List (Option P) → List Nat → Except PdfErr (List Nat)
  | [], _, data => .ok data
  | f :: fs, ps, data =>
    let p := match ps with
      | [] => none
      | p0 :: _ => p0
    let ps2 := ps.tail
    if f = "/FlateDecode" ∨ f = "/Fl" then
      match flateD data p with
      | .ok d2 => decode_stream_loop flateD lzwD hexD rlD a85D fs ps2 d2
      | .error e => .error e
    else if f = "/ASCIIHexDecode" then
      match hexD data with
      | .ok d2 => decode_stream_loop flateD lzwD hexD rlD a85D fs ps2 d2
      | .error e => .error e
    else if f = "/RunLengthDecode" then
      match rlD data with
      | .ok d2 => decode_stream_loop flateD lzwD hexD rlD a85D fs ps2 d2
      | .error e => .error e
    else if f = "/LZWDecode" then
      match lzwD data p with
      | .ok d2 => decode_stream_loop flateD lzwD hexD rlD a85D fs ps2 d2
      | .error e => .error e
    else if f = "/ASCII85Decode" then
      match a85D data with
      | .ok d2 => decode_stream_loop flateD lzwD hexD rlD a85D fs ps2 d2
      | .error e => .error e
    else if f = "/DCTDecode" ∨ f = "/JPXDecode" ∨ f = "/CCITTFaxDecode" then
      .ok data
    else
      .error .notImplementedError

/-- The three image filters whose payload decode_stream_data leaves to an
external image codec. -/
def is_image_filter (f : String) : Prop :=
  f = "/DCTDecode" ∨ f = "/JPXDecode" ∨ f = "/CCITTFaxDecode"

/-! ## DictionaryObject.get_inherited (pypdf/generic/_data_structures.py)

PDF objects live in an arena indexed by object id; a dictionary maps name
keys to values that are either indirect references into the arena or
direct (non-dictionary) primitives.  DictionaryObject.__getitem__ resolves
what it reads through get_object, so following /Parent resolves an
indirect reference to its arena object.  get_inherited returns the value
of the key, recursing into the parent dictionary when the key is absent
and a dictionary /Parent exists, and returning the default otherwise.
The source recursion has no depth bound, so it is embedded with fuel:
a result of none means the recursion is still running after that many
steps. -/

inductive PdfAtom where
  | ref (idnum : Nat)
  | direct (n : Int)
deriving DecidableEq, Repr

inductive PdfObj where
  | dict (entries : List (String × PdfAtom))
  | prim (n : Int)
deriving DecidableEq, Repr

/-- IndirectObject.get_object: resolve a reference through the arena;
direct values resolve to themselves. -/
def resolve_atom (arena : List PdfObj) : PdfAtom → PdfObj
  | .ref i => arena.getD i (.prim 0)
  | .direct n => .prim n

/-- Result of get_inherited: the resolved value of the key, or the default. -/
inductive InheritRes where
  | found (o : PdfObj)
  | defaulted
deriving DecidableEq, Repr

def get_inherited (arena : List PdfObj) :
    Nat → List (String × PdfAtom) → String → Option InheritRes
  | 0, _, _ => none
  | fuel + 1, entries, key =>
    match List.lookup key entries with
    | some v => some (.found (resolve_atom arena v))
    | none =>
      match List.lookup "/Parent" entries with
      | some p =>
        match resolve_atom arena p with
        | .dict es => get_inherited arena fuel es key
        | .prim _ => some .defaulted
      | none => some .defaulted

/-- A malformed two-object document whose /Parent links form a cycle. -/
def cycle_arena : List PdfObj :=
  [.dict [("/Parent", .ref 1)], .dict [("/Parent", .ref 0)]]

/-! ## read_previous_line (pypdf/_utils.py) and PdfReader._find_startxref_pos
(pypdf/_reader.py)

The stream is a byte buffer plus a position.  read_previous_line walks
backwards from the position collecting bytes until it crosses a CR/LF with
a nonempty collection (returning the collected bytes reversed and leaving
the position one past that CR/LF) or reaches the start of the buffer
(returning what was collected; the last read then leaves the position at 1
when at least one byte was examined, otherwise at 0).

_find_startxref_pos seeks to 1024 bytes before the end of the buffer and
then repeatedly calls read_previous_line until a line contains the keyword
startxref; it finally parses the line before that one as an integer.  The
search loop has no other exit, so it is embedded with fuel: none means the
loop is still running after that many calls. -/

def read_prev_go (data : List Nat) : Nat → List Nat → (List Nat × Option Nat)
  | 0, line => (line.reverse, none)
  | cp + 1, line =>
    let c := data.getD cp 0
    if c = 13 ∨ c = 10 then
      if line = [] then read_prev_go data cp line
      else (line.reverse, some (cp + 1))
    else read_prev_go data cp (c :: line)

def read_previous_line (data : List Nat) (pos : Nat) : List Nat × Nat :=
  match read_prev_go data pos [] with
  | (l, some p) => (l, p)
  | (l, none) => (l, if pos = 0 then 0 else 1)

/-- Python substring containment test for byte strings. -/
def bytes_contains (needle : List Nat) : List Nat → Bool
  | [] => needle.isEmpty
  | h :: t => needle.isPrefixOf (h :: t) || bytes_contains needle t

/-- The bytes of the startxref keyword. -/
def startxref_bytes : List Nat := [115, 116, 97, 114, 116, 120, 114, 101, 102]

/-- The backward scan loop of _find_startxref_pos: keep reading previous
lines until one contains startxref, returning that line and the stream
position, or none when the given number of iterations was not enough. -/
def find_startxref_loop (data : List Nat) : Nat → Nat → List Nat → Option (List Nat × Nat)
  | 0, _, _ => none
  | fuel + 1, pos, line =>
    if bytes_contains startxref_bytes line then some (line, pos)
    else
      let r := read_previous_line data pos
      find_startxref_loop data fuel r.2 r.1

/-- Python int() over a byte string: optional surrounding ASCII whitespace,
an optional sign, then at least one decimal digit. -/
def py_int_digits : List Nat → Option Int
  | [] => none
  | ds =>
    if ds.all (fun c => 48 ≤ c ∧ c ≤ 57) then
      some (ds.foldl (fun acc c => acc * 10 + ((c : Int) - 48)) 0)
    else none

def py_int (bs : List Nat) : Option Int :=
  let core := (bs.dropWhile (fun c => c = 32 ∨ c = 9 ∨ c = 10 ∨ c = 13)).reverse
  let core2 := (core.dropWhile (fun c => c = 32 ∨ c = 9 ∨ c = 10 ∨ c = 13)).reverse
  match core2 with
  | 45 :: ds => (py_int_digits ds).map (fun n => -n)
  | 43 :: ds => py_int_digits ds
  | ds => py_int_digits ds

/-- PdfReader._find_startxref_pos: seek to len-1024, scan backwards for the
startxref keyword, then parse the line before it as an integer.  The outer
Option is the scan fuel (none: the scan loop is still running); the inner
Option is the final int() parse (none: ValueError). -/
def find_startxref_pos (data : List Nat) (fuel : Nat) : Option (Option Int) :=
  match find_startxref_loop data fuel (data.length - 1024) [] with
  | none => none
  | some (_, pos) => some (py_int (read_previous_line data pos).1)

/-! ## Page labels (pypdf/_page_labels.py)

A /Nums array is a flat array alternating integer keys and page label
dictionaries (a value reached through reader.get_object; resolution is the
identity for the direct dictionaries used here).  A label dictionary has
the optional entries /S (numbering style name), /P (label prefix) and /St
(numbering start). -/

structure LabelDict where
  S : Option String
  P : Option String
  St : Option Int
deriving DecidableEq, Repr

inductive NumsElem where
  | num (k : Int)
  | dict (d : LabelDict)
deriving DecidableEq, Repr

/-- to_roman: subtractive-pair symbol table, largest first. -/
def roman_symbols : List (String × Int) :=
  [("M", 1000), ("CM", 900), ("D", 500), ("CD", 400), ("C", 100), ("XC", 90),
   ("L", 50), ("XL", 40), ("X", 10), ("IX", 9), ("V", 5), ("IV", 4), ("I", 1)]

/-- The inner while loop of to_roman: append the symbol while the value
still fits.  Every table value is at least 1, so num.toNat bounds the
number of iterations; with that much fuel the loop runs to completion. -/
def roman_app (sym : String) (value : Int) : Nat → Int → String → String × Int
  | 0, num, acc => (acc, num)
  | fuel + 1, num, acc =>
    if value ≤ num then roman_app sym value fuel (num - value) (acc ++ sym)
    else (acc, num)

def to_roman (num : Int) : String :=
  (roman_symbols.foldl (fun p sv => roman_app sv.1 sv.2 p.2.toNat p.2 p.1) ("", num)).1

/-- to_alpha: bijective base-26 via repeated divmod(num-1, 26); the loop
divides num by 26 each round, so num.toNat bounds the iterations. -/
def to_alpha_go : Nat → Int → String → String
  | 0, _, result => result
  | fuel + 1, num, result =>
    if 0 < num then
      to_alpha_go fuel ((num - 1).fdiv 26)
        (String.singleton (Char.ofNat (65 + ((num - 1).emod 26).toNat)) ++ result)
    else result

def to_alpha (num : Int) : String := to_alpha_go num.toNat num ""

def str_upper (s : String) : String := String.mk (s.data.map Char.toUpper)

def str_lower (s : String) : String := String.mk (s.data.map Char.toLower)

/-- The selection loop of index2label: walk the Nums array two entries at a
time, remembering the last key not exceeding the page index together with
its label dictionary, and stop at the first key beyond the index.
Comparing a non-number key position with the index raises TypeError, and a
key without a following value raises IndexError; a number in a value
position is detected later, when the label is used as a dictionary
(AttributeError), so the stored label is the raw element. -/
def scan_nums (index : Int) :
    List NumsElem → Int → Option NumsElem → Except PdfErr (Int × Option NumsElem)
  | [], s, l => .ok (s, l)
  | .dict _ :: _, _, _ => .error .typeError
  | [.num k], s, l => if k > index then .ok (s, l) else .error .indexError
  | .num k :: v :: rest, s, l =>
    if k > index then .ok (s, l)
    else scan_nums index rest k (some v)

/-- The numeral rendering tail of index2label, after the selection loop
produced start_index and a label dictionary. -/
def render_label (index start_index : Int) (label : NumsElem) : Except PdfErr String :=
  match label with
  | .num _ => .error .attributeError
  | .dict d =>
    let style := d.S.getD "D"
    let pfx := d.P.getD ""
    let start := d.St.getD 1
    let page_index := index - start_index + start
    if style = "/D" then .ok (pfx ++ toString page_index)
    else if style = "/R" then .ok (pfx ++ str_upper (to_roman page_index))
    else if style = "/r" then .ok (pfx ++ str_lower (to_roman page_index))
    else if style = "/A" then .ok (pfx ++ str_upper (to_alpha page_index))
    else if style = "/a" then .ok (pfx ++ str_lower (to_alpha page_index))
    else .ok (toString (index + 1))

/-- index2label: page_labels is the document catalog's /PageLabels /Nums
array when the catalog has a /PageLabels entry, none otherwise. -/
def index2label (page_labels : Option (List NumsElem)) (index : Int) : Except PdfErr String :=
  match page_labels with
  | none => .ok (toString (index + 1))
  | some nums =>
    match scan_nums index nums 0 none with
    | .error e => .error e
    | .ok (_, none) => .ok (toString (index + 1))
    | .ok (start_index, some label) => render_label index start_index label

/-- Specification-side selection: the entry of the pair list with the
greatest key not exceeding the index is the last entry of the prefix of
pairs with key at most the index (for a sorted pair list). -/
def spec_select (index : Int) (ps : List (Int × LabelDict)) : Option (Int × LabelDict) :=
  (ps.filter (fun p => p.1 ≤ index)).getLast?

/-- Flatten a pair list into the alternating /Nums wire shape. -/
def flat_pairs : List (Int × LabelDict) → List NumsElem
  | [] => []
  | (k, d) :: rest => .num k :: .dict d :: flat_pairs rest

/-- The two-range /Nums array of the specification example: key 0 maps to
lowercase-roman style, key 4 to decimal style. -/
def demo_nums : List NumsElem :=
  [.num 0, .dict ⟨some "/r", none, none⟩, .num 4, .dict ⟨some "/D", none, none⟩]

/-- The while loop of nums_clear_range, reading the suffix of the array
that starts at index i: advance i by two entries at a time until the end
of the array or a key at least page_index_to; a non-number in a key
position makes the comparison raise TypeError. -/
def clear_scan (bound : Int) : Nat → List NumsElem → Except PdfErr Nat
  | i, [] => .ok i
  | _, .dict _ :: _ => .error .typeError
  | i, [.num k] => if k ≥ bound then .ok i else .ok (i + 2)
  | i, .num k :: _ :: rest => if k ≥ bound then .ok i else clear_scan bound (i + 2) rest

/-- nums_clear_range: start two entries past the position of the key (or at
the array start when the key does not occur), advance to the first entry
with key at least page_index_to, and delete the elements in between. -/
def nums_clear_range (key : Int) (page_index_to : Int) (nums : List NumsElem) :
    Except PdfErr (List NumsElem) :=
  let start_index : Int := if NumsElem.num key ∈ nums then nums.indexOf (NumsElem.num key) else -2
  let s := (start_index + 2).toNat
  match clear_scan page_index_to s (nums.drop s) with
  | .error e => .error e
  | .ok i => .ok (nums.take s ++ nums.drop i)

/-! ## Content-stream transform engine
(pypdf/_text_extraction/_layout_mode/_text_state_manager.py and
_fixed_width_page.py)

TextStateManager keeps a ChainMap of transform frames (head = most
recently pushed child map), a Counter q_queue, a q_depth list (stored here
with the head playing the role of the Python list's last element), the
scalar text-state parameters and the current font.  Every frame pushed by
the source holds the six matrix entries plus is_text/is_render flags; the
empty map produced by taking the parents of a single-map ChainMap is
modelled as none, and reading matrix entries from it raises KeyError.

A Font (pypdf/_text_extraction/_layout_mode/_font.py, not under src/) is
opaque to everything embedded here.  Modelled from the spec: font metrics
live in an external collaborator module, so a font is represented by its
resource name only. -/

structure TFrame where
  a : Rat
  b : Rat
  c : Rat
  d : Rat
  e : Rat
  f : Rat
  is_text : Bool
  is_render : Bool
deriving DecidableEq

/-- One ChainMap map: a full transform frame, or the empty map that
ChainMap() inserts when all maps were popped. -/
def Frame : Type := Option TFrame

/-- Modelled from the spec: mult (pypdf/_text_extraction/__init__.py, not
under src/) is the 2D affine matrix product of two a/b/c/d/e/f matrices,
composing the first argument's transform with the second's. -/
def mult (m n : List Rat) : List Rat :=
  [m.getD 0 0 * n.getD 0 0 + m.getD 1 0 * n.getD 2 0,
   m.getD 0 0 * n.getD 1 0 + m.getD 1 0 * n.getD 3 0,
   m.getD 2 0 * n.getD 0 0 + m.getD 3 0 * n.getD 2 0,
   m.getD 2 0 * n.getD 1 0 + m.getD 3 0 * n.getD 3 0,
   m.getD 4 0 * n.getD 0 0 + m.getD 5 0 * n.getD 2 0 + n.getD 4 0,
   m.getD 4 0 * n.getD 1 0 + m.getD 5 0 * n.getD 3 0 + n.getD 5 0]

/-- Errors of the engine: fontNotSet is the PdfReadError raised by
text_state_params when no Tf operator has run; keyError is the Python
KeyError raised when a transform entry is read from an empty frame or a
font name is missing from the page's font dictionary; fuelExhausted only
reports that the recursion was cut off (never produced by the source, and
unreachable at the depths used below). -/
inductive EngErr where
  | fontNotSet
  | keyError
  | fuelExhausted
deriving DecidableEq, Repr

structure TextStateManager where
  transform_stack : List Frame
  q_queue : Int → Int
  q_depth : List Int
  Tc : Rat
  Tw : Rat
  Tz : Rat
  TL : Rat
  Ts : Rat
  font : Option String
  font_size : Rat

/-- TextStateManager.new_transform. -/
def new_transform (a b c d e f : Rat) (is_text is_render : Bool) : Frame :=
  some ⟨a, b, c, d, e, f, is_text, is_render⟩

/-- TextStateManager.__init__. -/
def init_tsm : TextStateManager :=
  { transform_stack := [new_transform 1 0 0 1 0 0 false false]
    q_queue := fun _ => 0
    q_depth := [0]
    Tc := 0
    Tw := 0
    Tz := 100
    TL := 0
    Ts := 0
    font := none
    font_size := 0 }

/-- ChainMap.parents: drop the newest map; a ChainMap constructed with no
maps holds a single empty map. -/
def chainmap_parents (maps : List Frame) : List Frame :=
  match maps with
  | [] => [none]
  | [_] => [none]
  | _ :: rest => rest

/-- TextStateManager.add_q: push a new nesting level and count it. -/
def add_q (s : TextStateManager) : TextStateManager :=
  let top := s.q_depth.headD 0
  { s with
    q_depth := (top + 1) :: s.q_depth
    q_queue := fun k => if k = top + 1 then s.q_queue (top + 1) + 1 else s.q_queue k }

/-- TextStateManager.remove_q: when the current nesting level is positive,
decrement it (dropping the level when its counter reaches zero), then
unconditionally pop one map off the transform stack. -/
def remove_q (s : TextStateManager) : TextStateManager :=
  let s1 :=
    match s.q_depth with
    | [] => s
    | t :: rest =>
      if 0 < t then
        let t2 := t - 1
        let qq := fun k => if k = t2 then s.q_queue t2 - 1 else s.q_queue k
        if qq t2 = 0 then { s with q_queue := fun k => if k = t2 then 0 else qq k, q_depth := rest }
        else { s with q_queue := qq, q_depth := t2 :: rest }
      else s
  { s1 with transform_stack := chainmap_parents s1.transform_stack }

/-- TextStateManager.add_cm. -/
def add_cm (s : TextStateManager) (a b c d e f : Rat) : TextStateManager :=
  { s with transform_stack := new_transform a b c d e f false false :: s.transform_stack }

/-- TextStateManager._complete_matrix. -/
def complete_matrix (operands : List Rat) : List Rat :=
  if operands.length = 2 then [1, 0, 0, 1, operands.getD 0 0, operands.getD 1 0]
  else operands

/-- TextStateManager.add_tm. -/
def add_tm (s : TextStateManager) (operands : List Rat) : TextStateManager :=
  let o := complete_matrix operands
  let fr := new_transform (o.getD 0 0) (o.getD 1 0) (o.getD 2 0) (o.getD 3 0) (o.getD 4 0)
    (o.getD 5 0) true false
  { s with transform_stack := fr :: s.transform_stack }

/-- TextStateManager.set_font. -/
def set_font (s : TextStateManager) (font : String) (size : Rat) : TextStateManager :=
  { s with font := some font, font_size := size }

/-- TextStateManager.set_state_param for one scalar operator. -/
def set_state_param (s : TextStateManager) (op : String) (v : Rat) : TextStateManager :=
  if op = "Tc" then { s with Tc := v }
  else if op = "Tw" then { s with Tw := v }
  else if op = "Tz" then { s with Tz := v }
  else if op = "TL" then { s with TL := v }
  else if op = "Ts" then { s with Ts := v }
  else s

/-- TextStateManager.effective_transform: fold mult over the stack from the
oldest map to the newest; reading the matrix entries of an empty frame
raises KeyError. -/
def eff_fold (acc : List Rat) : List Frame → Except EngErr (List Rat)
  | [] => .ok acc
  | none :: _ => .error .keyError
  | some t :: rest => eff_fold (mult acc [t.a, t.b, t.c, t.d, t.e, t.f]) rest

def effective_transform (s : TextStateManager) : Except EngErr (List Rat) :=
  eff_fold [1, 0, 0, 1, 0, 0] s.transform_stack.reverse

/-- The text state captured for one text-show operation (the construction
arguments of TextStateParams in TextStateManager.text_state_params; the
geometry derived from them lives in _text_state_params.py, which is not
under src/ and which no claim observes). -/
structure TextStateParams where
  txt : String
  font : String
  font_size : Rat
  Tc : Rat
  Tw : Rat
  Tz : Rat
  TL : Rat
  Ts : Rat
  transform : List Rat

/-- TextStateManager.text_state_params: raise PdfReadError (font not set)
when no Tf operator has run, otherwise capture the current scalars and the
effective transform. -/
def text_state_params (s : TextStateManager) (value : String) :
    Except EngErr TextStateParams :=
  match s.font with
  | none => .error .fontNotSet
  | some fnt =>
    match effective_transform s with
    | .error e => .error e
    | .ok t =>
      .ok { txt := value, font := fnt, font_size := s.font_size, Tc := s.Tc, Tw := s.Tw
            Tz := s.Tz, TL := s.TL, Ts := s.Ts, transform := t }

/-- Content-stream operator tokens, with the operand shapes the engine
reads.  opTJ carries the strings of its array (the numeric adjustments are
ignored by the rendered-text join); opOther stands for any operator none
of the engine's branches handles. -/
inductive COp where
  | opq
  | opQ
  | opBT
  | opET
  | opcm (a b c d e f : Rat)
  | opTm (operands : List Rat)
  | opTf (font_name : String) (size : Rat)
  | opTc (v : Rat)
  | opTw (v : Rat)
  | opTz (v : Rat)
  | opTL (v : Rat)
  | opTs (v : Rat)
  | opTj (s : String)
  | opTJ (parts : List String)
  | opOther
deriving DecidableEq

/-- recurs_to_target_op (pypdf/_text_extraction/_layout_mode/
_fixed_width_page.py): walk the operator stream updating the shared
TextStateManager until the end target operator is consumed (the break
leaves the state untouched) or the stream ends.  Nested BT and q blocks
recurse with the matching end target on the same stream.  A Tf operator
looks its font up in the page's font dictionary (KeyError when absent); Tj
and TJ capture the current text state (the source calls text_state_params
with its default empty value and joins the rendered text separately).
Returns the captured text states, the final state, and the unconsumed rest
of the stream.  BTGroup assembly from the captured states is not modelled:
no claim observes it.  The fuel bounds the recursion depth and is always
sufficient at the call sites used in the theorems. -/
def recurs_to_target_op (fonts : List (String × String)) :
    Nat → List COp → TextStateManager → COp →
    Except EngErr (List TextStateParams × TextStateManager × List COp)
  | 0, _, _, _ => .error .fuelExhausted
  | _ + 1, [], s, _ => .ok ([], s, [])
  | fuel + 1, op :: rest, s, tgt =>
    if op = tgt then .ok ([], s, rest)
    else
      match op with
      | .opBT =>
        match recurs_to_target_op fonts fuel rest s .opET with
        | .error e => .error e
        | .ok (ps1, s1, rem) =>
          match recurs_to_target_op fonts fuel rem s1 tgt with
          | .error e => .error e
          | .ok (ps2, s2, rem2) => .ok (ps1 ++ ps2, s2, rem2)
      | .opq =>
        match recurs_to_target_op fonts fuel rest (add_q s) .opQ with
        | .error e => .error e
        | .ok (ps1, s1, rem) =>
          match recurs_to_target_op fonts fuel rem s1 tgt with
          | .error e => .error e
          | .ok (ps2, s2, rem2) => .ok (ps1 ++ ps2, s2, rem2)
      | .opcm a b c d e f => recurs_to_target_op fonts fuel rest (add_cm s a b c d e f) tgt
      | .opTm operands => recurs_to_target_op fonts fuel rest (add_tm s operands) tgt
      | .opTf name size =>
        match List.lookup name fonts with
        | none => .error .keyError
        | some fnt => recurs_to_target_op fonts fuel rest (set_font s fnt size) tgt
      | .opTc v => recurs_to_target_op fonts fuel rest (set_state_param s "Tc" v) tgt
      | .opTw v => recurs_to_target_op fonts fuel rest (set_state_param s "Tw" v) tgt
      | .opTz v => recurs_to_target_op fonts fuel rest (set_state_param s "Tz" v) tgt
      | .opTL v => recurs_to_target_op fonts fuel rest (set_state_param s "TL" v) tgt
      | .opTs v => recurs_to_target_op fonts fuel rest (set_state_param s "Ts" v) tgt
      | .opTj _ =>
        match text_state_params s "" with
        | .error e => .error e
        | .ok tj =>
          match recurs_to_target_op fonts fuel rest s tgt with
          | .error e => .error e
          | .ok (ps1, s1, rem) => .ok (tj :: ps1, s1, rem)
      | .opTJ _ =>
        match text_state_params s "" with
        | .error e => .error e
        | .ok tj =>
          match recurs_to_target_op fonts fuel rest s tgt with
          | .error e => .error e
          | .ok (ps1, s1, rem) => .ok (tj :: ps1, s1, rem)
      | _ => recurs_to_target_op fonts fuel rest s tgt

/-- text_show_operations (same file), reduced to its state effects: at the
top level a BT recurses to the matching ET, a q pushes a nesting level and
recurses to the matching Q, a bare Q calls remove_q, a cm concatenates a
transform, and every other operator is ignored.  Returns the final
TextStateManager (the captured text states drive only the BTGroup output,
which no claim observes). -/
def text_show_operations_state (fonts : List (String × String)) :
    Nat → List COp → TextStateManager → Except EngErr TextStateManager
  | 0, _, _ => .error .fuelExhausted
  | _ + 1, [], s => .ok s
  | fuel + 1, op :: rest, s =>
    match op with
    | .opBT =>
      match recurs_to_target_op fonts fuel rest s .opET with
      | .error e => .error e
      | .ok (_, s1, rem) => text_show_operations_state fonts fuel rem s1
    | .opq =>
      match recurs_to_target_op fonts fuel rest (add_q s) .opQ with
      | .error e => .error e
      | .ok (_, s1, rem) => text_show_operations_state fonts fuel rem s1
    | .opQ => text_show_operations_state fonts fuel rest (remove_q s)
    | .opcm a b c d e f => text_show_operations_state fonts fuel rest (add_cm s a b c d e f)
    | _ => text_show_operations_state fonts fuel rest s

/-! ## Theorems -/

/-- The run-length loop does not depend on the fuel once the fuel covers
the length of the data (every iteration consumes at least one byte). -/
theorem run_length_go_fuel :
    ∀ f1 : Nat, ∀ d : List Nat, ∀ f2 : Nat, d.length ≤ f1 → d.length ≤ f2 →
      run_length_go f1 d = run_length_go f2 d := by
  intro f1
  induction f1 with
  | zero =>
    intro d f2 h1 _
    have hd : d = [] := List.eq_nil_of_length_eq_zero (Nat.le_zero.mp h1)
    subst hd
    cases f2 <;> rfl
  | succ f1 ih =>
    intro d f2 h1 h2
    cases d with
    | nil => cases f2 <;> rfl
    | cons l rest =>
      cases f2 with
      | zero => simp at h2
      | succ f2 =>
        simp only [run_length_go]
        by_cases h128 : l = 128
        · simp [h128]
        · simp only [if_neg h128]
          by_cases hlt : l < 128
          · simp only [if_pos hlt]
            have hr : (rest.drop (l + 1)).length ≤ f1 := by
              have := List.length_drop (l + 1) rest
              simp only [List.length_cons] at h1
              omega
            have hr2 : (rest.drop (l + 1)).length ≤ f2 := by
              have := List.length_drop (l + 1) rest
              simp only [List.length_cons] at h2
              omega
            rw [ih _ _ hr hr2]
          · simp only [if_neg hlt]
            cases rest with
            | nil => rfl
            | cons b rest2 =>
              have hr : rest2.length ≤ f1 := by
                simp only [List.length_cons] at h1; omega
              have hr2 : rest2.length ≤ f2 := by
                simp only [List.length_cons] at h2; omega
              dsimp only
              rw [ih _ _ hr hr2]

/-- C6: RunLengthDecode.decode satisfies the run-length contract: a length
byte below 128 copies the following length+1 literal bytes and continues
on the remainder, a length byte above 128 emits 257-length copies of the
following byte and continues, the length byte 128 ends decoding
discarding the remainder, and the concrete input 2,a,b,c,255,A,128
decodes to abcAA. -/
theorem c6_run_length_decode :
    (∀ (l : Nat) (pre rest : List Nat), l < 128 → pre.length = l + 1 →
        run_length_decode (l :: (pre ++ rest)) =
          (run_length_decode rest).map (fun t => pre ++ t)) ∧
    (∀ (l b : Nat) (rest : List Nat), 128 < l →
        run_length_decode (l :: b :: rest) =
          (run_length_decode rest).map (fun t => List.replicate (257 - l) b ++ t)) ∧
    (∀ rest : List Nat, run_length_decode (128 :: rest) = .ok []) ∧
    run_length_decode [2, 97, 98, 99, 255, 65, 128] = .ok [97, 98, 99, 65, 65] := by
  refine ⟨?_, ?_, ?_, by decide⟩
  · intro l pre rest hlt hlen
    have hne : l ≠ 128 := by omega
    simp only [run_length_decode, List.length_cons, run_length_go, if_neg hne, if_pos hlt]
    have hdrop : (pre ++ rest).drop (l + 1) = rest := by
      rw [← hlen]; exact List.drop_left pre rest
    have htake : (pre ++ rest).take (l + 1) = pre := by
      rw [← hlen]; exact List.take_left pre rest
    rw [hdrop, htake]
    have hfuel : rest.length ≤ (pre ++ rest).length := by
      simp [List.length_append]
    rw [run_length_go_fuel _ _ _ hfuel (Nat.le_refl _)]
    cases run_length_go rest.length rest <;> rfl
  · intro l b rest hgt
    have hne : l ≠ 128 := by omega
    have hnlt : ¬ l < 128 := by omega
    simp only [run_length_decode, List.length_cons, run_length_go, if_neg hne, if_neg hnlt]
    have hfuel : rest.length ≤ rest.length + 1 := Nat.le_succ _
    rw [run_length_go_fuel _ _ _ hfuel (Nat.le_refl _)]
    cases run_length_go rest.length rest <;> rfl
  · intro rest
    simp [run_length_decode, run_length_go]

/-- Witness for c6_run_length_decode: the literal equation at l = 1 with
pre = 7,8 and rest = 128, evaluated. -/
theorem c6_run_length_decode_witness :
    run_length_decode (1 :: ([7, 8] ++ [128])) =
      (run_length_decode [128]).map (fun t => [7, 8] ++ t) :=
  c6_run_length_decode.1 1 [7, 8] [128] (by decide) (by decide)

/-- C2: what FlateDecode._decode_predictor actually does on one-row PNG
inputs with Columns 2, Colors 1, BitsPerComponent 8 (row size 3, one
filter-type byte and two data bytes).  A filter type 2 (Up) row is
silently dropped from the output instead of failing; a filter type 1
(Sub) row raises TypeError (assignment into an immutable bytes slice)
instead of decoding; a filter type 0 (None) row is copied; and only a
predictor number outside 2 and 10..15 raises the unsupported-predictor
PdfReadError. -/
theorem c2_png_predictor_gaps :
    decode_predictor [2, 10, 20] 10 2 1 8 = .ok [] ∧
    decode_predictor [1, 10, 20] 10 2 1 8 = .error .typeError ∧
    decode_predictor [0, 10, 20] 10 2 1 8 = .ok [10, 20] ∧
    decode_predictor [0, 10, 20] 3 2 1 8 = .error .pdfReadError := by
  refine ⟨by decide, by decide, by decide, by decide⟩

/-- Iterating add_code_to_dict from any state whose width agrees with its
entry count keeps the width at exactly the value determined by the entry
count: 9 below 512 entries, 10 below 1024, 11 below 2048, 12 from 2048
on. -/
theorem lzw_addN_width :
    ∀ (k : Nat) (s : LZWState), 258 ≤ s.dict_size →
      s.curr_code_size = lzw_width_of s.dict_size →
      (lzw_addN k s).dict_size = s.dict_size + k ∧
      (lzw_addN k s).curr_code_size = lzw_width_of (s.dict_size + k) := by
  intro k
  induction k with
  | zero => intro s _ h2; exact ⟨rfl, by simpa using h2⟩
  | succ k ih =>
    intro s h1 h2
    have hstep : (lzw_add_code s [0]).dict_size = s.dict_size + 1 := rfl
    have hw : (lzw_add_code s [0]).curr_code_size = lzw_width_of (s.dict_size + 1) := by
      show (if s.dict_size + 1 = 512 then 10 else if s.dict_size + 1 = 1024 then 11
        else if s.dict_size + 1 = 2048 then 12 else s.curr_code_size) = _
      by_cases h512 : s.dict_size + 1 = 512
      · rw [if_pos h512, h512]; rfl
      · rw [if_neg h512]
        by_cases h1024 : s.dict_size + 1 = 1024
        · rw [if_pos h1024, h1024]; rfl
        · rw [if_neg h1024]
          by_cases h2048 : s.dict_size + 1 = 2048
          · rw [if_pos h2048, h2048]; rfl
          · rw [if_neg h2048, h2]
            unfold lzw_width_of
            split_ifs <;> omega
    have hs1 : 258 ≤ (lzw_add_code s [0]).dict_size := by rw [hstep]; omega
    have hw2 : (lzw_add_code s [0]).curr_code_size
        = lzw_width_of (lzw_add_code s [0]).dict_size := by
      rw [hstep]; exact hw
    have hrec := ih (lzw_add_code s [0]) hs1 hw2
    simp only [lzw_addN]
    constructor
    · rw [hrec.1, hstep]; omega
    · rw [hrec.2, hstep]
      congr 1
      omega

/-- C5 counterexample: the code width changes to 10 bits at the point where
the dictionary grows to 512 entries, not 1024: after 253 additions to a
freshly reset dictionary the table holds 511 entries and the width is
still 9, and the 254th addition brings it to 512 entries with width 10. -/
theorem c5_width_counterexample :
    (lzw_addN 253 (lzw_init [])).dict_size = 511 ∧
    (lzw_addN 253 (lzw_init [])).curr_code_size = 9 ∧
    (lzw_addN 254 (lzw_init [])).dict_size = 512 ∧
    (lzw_addN 254 (lzw_init [])).curr_code_size = 10 := by
  have h253 := lzw_addN_width 253 (lzw_init []) (by decide) (by decide)
  have h254 := lzw_addN_width 254 (lzw_init []) (by decide) (by decide)
  refine ⟨h253.1, ?_, h254.1, ?_⟩
  · rw [h253.2]; rfl
  · rw [h254.2]; rfl

/-- C5 (amended): the LZW decoder starts with 9-bit codes over a table
preloaded with the 256 single-byte strings and the two control codes 256
(CLEARDICT) and 257 (STOP), so 258 live entries; the code width rises to
10, 11 and 12 bits exactly when the table grows to 512, 1024 and 2048
entries; CLEARDICT resets the table count and the width; and STOP ends
decoding, as shown on a concrete 9-bit stream A, B, CLEAR, C, STOP which
decodes to ABC, also when trailing bytes follow the STOP code. -/
theorem c5_lzw_decoder :
    (∀ data : List Nat, (lzw_init data).dict_size = 258 ∧
        (lzw_init data).curr_code_size = 9 ∧
        ∀ i : Nat, i < 256 → (lzw_init data).dict i = [i]) ∧
    (∀ (k : Nat) (s : LZWState), s.dict_size = 258 → s.curr_code_size = 9 →
        (lzw_addN k s).dict_size = 258 + k ∧
        (lzw_addN k s).curr_code_size = lzw_width_of (258 + k)) ∧
    (∀ s : LZWState, (lzw_reset_dict s).dict_size = 258 ∧
        (lzw_reset_dict s).curr_code_size = 9) ∧
    lzw_decode 10 [32, 144, 160, 4, 56, 8] = .ok [65, 66, 67] ∧
    lzw_decode 10 [32, 144, 160, 4, 56, 8, 255] = .ok [65, 66, 67] := by
  refine ⟨?_, ?_, ?_, by decide, by decide⟩
  · intro data
    exact ⟨rfl, rfl, fun i hi => by simp [lzw_init, hi]⟩
  · intro k s h1 h2
    have := lzw_addN_width k s (by omega) (by rw [h1, h2]; rfl)
    rw [h1] at this
    exact this
  · intro s
    exact ⟨rfl, rfl⟩

/-- Witness for c5_lzw_decoder: the preload fact at index 65 and the width
fact after 300 additions, at concrete states. -/
theorem c5_lzw_decoder_witness :
    (lzw_init [7]).dict 65 = [65] ∧
    (lzw_addN 300 (lzw_init [7])).dict_size = 558 ∧
    (lzw_addN 300 (lzw_init [7])).curr_code_size = lzw_width_of 558 := by
  refine ⟨c5_lzw_decoder.1 [7] |>.2.2 65 (by decide), ?_, ?_⟩
  · exact (c5_lzw_decoder.2.1 300 (lzw_init [7]) rfl rfl).1
  · exact (c5_lzw_decoder.2.1 300 (lzw_init [7]) rfl rfl).2

/-- When the head of the remaining filter list is one of the image filters,
decode_stream_data returns the accumulated data unchanged. -/
theorem decode_loop_image_head {P : Type}
    (flateD lzwD : List Nat → Option P → Except PdfErr (List Nat))
    (hexD rlD a85D : List Nat → Except PdfErr (List Nat))
    (f : String) (post : List String) (ps : List (Option P)) (data : List Nat)
    (h : is_image_filter f) :
    decode_stream_loop flateD lzwD hexD rlD a85D (f :: post) ps data = .ok data := by
  rcases h with h | h | h <;> subst h <;> simp [decode_stream_loop]

/-- Filters listed after an image filter are never applied: the loop over a
list that continues past an image filter computes the same result as the
loop stopped at that image filter. -/
theorem decode_loop_append_image {P : Type}
    (flateD lzwD : List Nat → Option P → Except PdfErr (List Nat))
    (hexD rlD a85D : List Nat → Except PdfErr (List Nat))
    (f : String) (post : List String) (h : is_image_filter f) :
    ∀ (pre : List String) (ps : List (Option P)) (data : List Nat),
      decode_stream_loop flateD lzwD hexD rlD a85D (pre ++ f :: post) ps data =
        decode_stream_loop flateD lzwD hexD rlD a85D pre ps data := by
  intro pre
  induction pre with
  | nil =>
    intro ps data
    rw [List.nil_append, decode_loop_image_head flateD lzwD hexD rlD a85D f post ps data h]
    rfl
  | cons g gs ih =>
    intro ps data
    rw [List.cons_append]
    show decode_stream_loop flateD lzwD hexD rlD a85D (g :: (gs ++ f :: post)) ps data
      = decode_stream_loop flateD lzwD hexD rlD a85D (g :: gs) ps data
    simp only [decode_stream_loop]
    split_ifs
    · cases flateD data (match ps with | [] => none | p0 :: _ => p0) <;> simp [ih]
    · cases hexD data <;> simp [ih]
    · cases rlD data <;> simp [ih]
    · cases lzwD data (match ps with | [] => none | p0 :: _ => p0) <;> simp [ih]
    · cases a85D data <;> simp [ih]
    · rfl
    · rfl

/-- C9: for every stream whose filter list mentions DCTDecode, JPXDecode or
CCITTFaxDecode at any position, decode_stream_data returns the bytes
accumulated by the filters before it unchanged — the loop over the full
list equals the loop over the prefix before the image filter, whose
terminal result is the accumulated data — and never applies any filter
listed after it; when the image filter comes first the raw data itself is
returned.  This holds for every behaviour of the individual codecs. -/
theorem c9_image_filter_stops_chain :
    ∀ (P : Type) (flateD lzwD : List Nat → Option P → Except PdfErr (List Nat))
      (hexD rlD a85D : List Nat → Except PdfErr (List Nat))
      (f : String) (pre post : List String) (ps : List (Option P)) (data : List Nat),
      is_image_filter f →
      decode_stream_loop flateD lzwD hexD rlD a85D (pre ++ f :: post) ps data =
        decode_stream_loop flateD lzwD hexD rlD a85D pre ps data ∧
      decode_stream_loop flateD lzwD hexD rlD a85D (f :: post) ps data = .ok data := by
  intro P flateD lzwD hexD rlD a85D f pre post ps data h
  exact ⟨decode_loop_append_image flateD lzwD hexD rlD a85D f post h pre ps data,
    decode_loop_image_head flateD lzwD hexD rlD a85D f post ps data h⟩

/-- Witness for c9_image_filter_stops_chain: a FlateDecode step before a
DCTDecode, with a RunLengthDecode listed after it, on concrete data. -/
theorem c9_image_filter_stops_chain_witness :
    decode_stream_loop (P := Unit) (fun d _ => .ok (d ++ [7])) (fun d _ => .ok d)
        (fun d => .ok d) (fun d => .ok d) (fun d => .ok d)
        (["/FlateDecode"] ++ "/DCTDecode" :: ["/RunLengthDecode"]) [] [1, 2] =
      decode_stream_loop (P := Unit) (fun d _ => .ok (d ++ [7])) (fun d _ => .ok d)
        (fun d => .ok d) (fun d => .ok d) (fun d => .ok d) ["/FlateDecode"] [] [1, 2] ∧
    decode_stream_loop (P := Unit) (fun d _ => .ok (d ++ [7])) (fun d _ => .ok d)
        (fun d => .ok d) (fun d => .ok d) (fun d => .ok d)
        ("/DCTDecode" :: ["/RunLengthDecode"]) [] [1, 2] = .ok [1, 2] :=
  c9_image_filter_stops_chain Unit (fun d _ => .ok (d ++ [7])) (fun d _ => .ok d)
    (fun d => .ok d) (fun d => .ok d) (fun d => .ok d)
    "/DCTDecode" ["/FlateDecode"] ["/RunLengthDecode"] [] [1, 2] (Or.inl rfl)

/-- On the two-object /Parent cycle, get_inherited makes no progress at any
recursion depth, from either dictionary. -/
theorem get_inherited_cycle_none :
    ∀ fuel : Nat,
      get_inherited cycle_arena fuel [("/Parent", PdfAtom.ref 1)] "/MediaBox" = none ∧
      get_inherited cycle_arena fuel [("/Parent", PdfAtom.ref 0)] "/MediaBox" = none := by
  intro fuel
  induction fuel with
  | zero => exact ⟨rfl, rfl⟩
  | succ n ih => exact ⟨ih.2, ih.1⟩

/-- C3: the recursion of get_inherited does not terminate on a malformed
document whose /Parent links form a cycle and that lacks the key: at every
recursion depth whatsoever the lookup is still unfinished, so no traversal
cap ever cuts it off and the Python recursion runs until the interpreter's
recursion limit kills it. -/
theorem c3_get_inherited_cycle_diverges :
    ∀ fuel : Nat,
      get_inherited cycle_arena fuel [("/Parent", PdfAtom.ref 1)] "/MediaBox" = none :=
  fun fuel => (get_inherited_cycle_none fuel).1

/-- Once the backward scan of _find_startxref_pos reaches the start of the
stream without having met the keyword, every further read_previous_line
call returns the empty line at position 0, so the scan loop never exits,
whatever iteration budget it is given. -/
theorem find_startxref_loop_stuck (data : List Nat) :
    ∀ fuel : Nat, find_startxref_loop data fuel 0 [] = none := by
  intro fuel
  induction fuel with
  | zero => rfl
  | succ n ih => exact ih

/-- C4: on a 1024-byte input that lacks the startxref keyword (here 1024
letter-A bytes), _find_startxref_pos neither returns nor raises a typed
error: its scan loop runs forever.  The seek positions the scan at offset
length-1024 = 0, the first read_previous_line call returns the empty line
at position 0, and the loop repeats that call indefinitely. -/
theorem c4_missing_startxref_hangs :
    ∀ fuel : Nat, find_startxref_pos (List.replicate 1024 65) fuel = none := by
  intro fuel
  have h0 : (List.replicate 1024 (65 : Nat)).length - 1024 = 0 := by
    rw [List.length_replicate]
  simp only [find_startxref_pos, h0, find_startxref_loop_stuck]

/-- C1: replaying q, then three cm transforms, then the matching Q does not
restore the pre-q effective transform: the recursion returns at the Q
without popping anything (and remove_q, when it does run, pops exactly one
frame), so all three matrices remain in force.  Before the block the
effective transform is the identity; after it, it is the full composition
of the three cm matrices. -/
theorem c1_q_restore_broken :
    (text_show_operations_state [] 10
        [.opq, .opcm 2 0 0 2 0 0, .opcm 1 0 0 1 5 7, .opcm 3 0 0 1 0 0, .opQ]
        init_tsm).bind effective_transform = .ok [6, 0, 0, 2, 15, 7] ∧
    effective_transform init_tsm = .ok [1, 0, 0, 1, 0, 0] ∧
    ([6, 0, 0, 2, 15, 7] : List Rat) ≠ [1, 0, 0, 1, 0, 0] := by
  refine ⟨?_, ?_, by norm_num⟩
  · simp [text_show_operations_state, recurs_to_target_op, add_q, add_cm, init_tsm,
      new_transform, chainmap_parents, effective_transform, eff_fold, mult, Except.bind]
    norm_num
  · simp [effective_transform, init_tsm, new_transform, eff_fold, mult]

/-- C8: a text-show operator before any font selection raises the
font-not-set PdfReadError, but traversal of a stream whose only defect is
an unmatched Q does raise: the unmatched Q pops the base transform frame
(remove_q's pop is not clamped, only the nesting counter is), and the next
text-show operation then fails with a KeyError while reading the effective
transform from the resulting empty frame. -/
theorem c8_font_not_set_and_unbalanced_q :
    (∀ (s : TextStateManager) (v : String), s.font = none →
        text_state_params s v = .error .fontNotSet) ∧
    text_show_operations_state [("F1", "F1")] 10
        [.opQ, .opBT, .opTf "F1" 12, .opTj "x", .opET] init_tsm = .error .keyError := by
  constructor
  · intro s v h
    simp [text_state_params, h]
  · simp [text_show_operations_state, recurs_to_target_op, remove_q, init_tsm,
      chainmap_parents, set_font, text_state_params, effective_transform, eff_fold,
      List.lookup]

/-- Witness for c8_font_not_set_and_unbalanced_q: the initial state has no
font, and capturing text state there raises the font-not-set error. -/
theorem c8_font_not_set_witness :
    text_state_params init_tsm "x" = .error .fontNotSet :=
  c8_font_not_set_and_unbalanced_q.1 init_tsm "x" rfl

/-- Over a key-sorted pair list, the selection loop of index2label returns
the entry with the greatest key not exceeding the page index (falling back
to its accumulator when every key exceeds the index). -/
theorem scan_nums_spec :
    ∀ (ps : List (Int × LabelDict)) (index s : Int) (l : Option NumsElem),
      List.Pairwise (fun p q => p.1 < q.1) ps →
      scan_nums index (flat_pairs ps) s l =
        .ok (match spec_select index ps with
             | some kd => (kd.1, some (.dict kd.2))
             | none => (s, l)) := by
  intro ps
  induction ps with
  | nil => intro index s l _; rfl
  | cons p rest ih =>
    intro index s l hp
    obtain ⟨k, d⟩ := p
    rw [List.pairwise_cons] at hp
    by_cases hk : k > index
    · have hnil : rest.filter (fun q => decide (q.1 ≤ index)) = [] := by
        refine List.filter_eq_nil_iff.mpr ?_
        intro q hq
        have := hp.1 q hq
        simp only [decide_eq_true_eq]
        omega
      have hsel : spec_select index ((k, d) :: rest) = none := by
        simp only [spec_select, List.filter_cons]
        have : ¬ k ≤ index := by omega
        simp [this, hnil]
      rw [hsel]
      show scan_nums index (.num k :: .dict d :: flat_pairs rest) s l = .ok (s, l)
      simp [scan_nums, hk]
    · have hk2 : k ≤ index := by omega
      have hstep : scan_nums index (flat_pairs ((k, d) :: rest)) s l =
          scan_nums index (flat_pairs rest) k (some (.dict d)) := by
        show scan_nums index (.num k :: .dict d :: flat_pairs rest) s l = _
        cases hfr : flat_pairs rest with
        | nil => simp [scan_nums, hk]
        | cons x xs => simp [scan_nums, hk]
      rw [hstep, ih index k (some (.dict d)) hp.2]
      have hfilter : ((k, d) :: rest).filter (fun q => decide (q.1 ≤ index)) =
          (k, d) :: rest.filter (fun q => decide (q.1 ≤ index)) := by
        simp [List.filter_cons, hk2]
      cases hfr : rest.filter (fun q => decide (q.1 ≤ index)) with
      | nil =>
        have : spec_select index ((k, d) :: rest) = some (k, d) := by
          simp [spec_select, hfilter, hfr]
        rw [this]
        have : spec_select index rest = none := by simp [spec_select, hfr]
        rw [this]
      | cons y ys =>
        have h1 : spec_select index ((k, d) :: rest) = (y :: ys).getLast? := by
          simp only [spec_select, hfilter, hfr]
          exact List.getLast?_cons_cons
        have h2 : spec_select index rest = (y :: ys).getLast? := by
          simp [spec_select, hfr]
        rw [h1, h2]
        cases hgl : (y :: ys).getLast? with
        | none => simp at hgl
        | some z => rfl

/-- C7: index2label selects the number-tree entry with the greatest key not
exceeding the page index (for a sorted, well-formed /Nums array), and on
the array 0 maps-to lowercase-roman, 4 maps-to decimal it labels page 0 as
i, page 4 as 1 and page 5 as 2. -/
theorem c7_index2label :
    (∀ (ps : List (Int × LabelDict)) (index : Int),
        List.Pairwise (fun p q => p.1 < q.1) ps →
        scan_nums index (flat_pairs ps) 0 none =
          .ok (match spec_select index ps with
               | some kd => (kd.1, some (.dict kd.2))
               | none => (0, none))) ∧
    index2label (some demo_nums) 0 = .ok "i" ∧
    index2label (some demo_nums) 4 = .ok "1" ∧
    index2label (some demo_nums) 5 = .ok "2" := by
  refine ⟨fun ps index hp => scan_nums_spec ps index 0 none hp, by decide, by decide, by decide⟩

/-- Witness for c7_index2label: the selection property applied to the
sorted pair list underlying demo_nums at page index 5. -/
theorem c7_index2label_witness :
    scan_nums 5 (flat_pairs [(0, ⟨some "/r", none, none⟩), (4, ⟨some "/D", none, none⟩)])
        0 none =
      .ok (match spec_select 5 [(0, ⟨some "/r", none, none⟩), (4, ⟨some "/D", none, none⟩)] with
           | some kd => (kd.1, some (.dict kd.2))
           | none => (0, none)) :=
  c7_index2label.1 [(0, ⟨some "/r", none, none⟩), (4, ⟨some "/D", none, none⟩)] 5
    (by simp)

/-- Dropping as many elements as the takeWhile prefix holds is dropWhile. -/
theorem drop_takeWhile_length {α : Type} (p : α → Bool) :
    ∀ l : List α, l.drop (l.takeWhile p).length = l.dropWhile p := by
  intro l
  induction l with
  | nil => rfl
  | cons a t ih =>
    by_cases h : p a
    · simp [List.takeWhile_cons, List.dropWhile_cons, h, ih]
    · simp [List.takeWhile_cons, List.dropWhile_cons, h]

/-- Dropping an even number of elements from a flattened pair list drops
whole pairs. -/
theorem flat_pairs_drop :
    ∀ (ps : List (Int × LabelDict)) (n : Nat),
      (flat_pairs ps).drop (2 * n) = flat_pairs (ps.drop n) := by
  intro ps
  induction ps with
  | nil => intro n; simp [flat_pairs]
  | cons p rest ih =>
    intro n
    obtain ⟨k, d⟩ := p
    cases n with
    | zero => rfl
    | succ m =>
      have h2 : 2 * (m + 1) = 2 * m + 1 + 1 := by omega
      rw [h2]
      show (flat_pairs rest).drop (2 * m) = flat_pairs (rest.drop m)
      exact ih m

/-- The stop-index scan of nums_clear_range, started at position i on the
suffix holding the flattened pairs, stops right after the pairs whose keys
are below the bound. -/
theorem clear_scan_flat :
    ∀ (ps : List (Int × LabelDict)) (bound : Int) (i : Nat),
      clear_scan bound i (flat_pairs ps) =
        .ok (i + 2 * (ps.takeWhile (fun p => decide (p.1 < bound))).length) := by
  intro ps
  induction ps with
  | nil => intro bound i; simp [flat_pairs, clear_scan]
  | cons p rest ih =>
    intro bound i
    obtain ⟨k, d⟩ := p
    by_cases hk : k ≥ bound
    · have hnlt : ¬ k < bound := by omega
      cases hfr : flat_pairs rest with
      | nil => simp [flat_pairs, clear_scan, hk, List.takeWhile_cons, hnlt]
      | cons x xs => simp [flat_pairs, clear_scan, hfr, hk, List.takeWhile_cons, hnlt]
    · have hlt : k < bound := by omega
      have hknge : ¬ k ≥ bound := hk
      cases hfr : flat_pairs rest with
      | nil =>
        have hrest : rest = [] := by
          cases rest with
          | nil => rfl
          | cons q qs => obtain ⟨k2, d2⟩ := q; simp [flat_pairs] at hfr
        subst hrest
        simp [flat_pairs, clear_scan, hknge, List.takeWhile_cons, hlt]
      | cons x xs =>
        have hstep : clear_scan bound i (flat_pairs ((k, d) :: rest)) =
            clear_scan bound (i + 2) (flat_pairs rest) := by
          show clear_scan bound i (.num k :: .dict d :: flat_pairs rest) = _
          rw [hfr]
          simp [clear_scan, hknge]
        rw [hstep, ih bound (i + 2)]
        simp [List.takeWhile_cons, hlt]
        omega

/-- C10: when the key is not present in the Nums array, nums_clear_range
deletes the entries from the start of the array up to (and excluding) the
first entry whose key reaches the upper bound, leaving exactly the pairs
from that entry on. -/
theorem c10_nums_clear_range_absent_key :
    ∀ (ps : List (Int × LabelDict)) (key bound : Int),
      NumsElem.num key ∉ flat_pairs ps →
      nums_clear_range key bound (flat_pairs ps) =
        .ok (flat_pairs (ps.dropWhile (fun p => decide (p.1 < bound)))) := by
  intro ps key bound hnot
  have hmem : ¬ NumsElem.num key ∈ flat_pairs ps := hnot
  simp only [nums_clear_range, if_neg hmem]
  have hs : ((-2 : Int) + 2).toNat = 0 := rfl
  rw [hs]
  simp only [List.drop_zero, List.take_zero, List.nil_append]
  rw [clear_scan_flat ps bound 0]
  dsimp only
  rw [Nat.zero_add, flat_pairs_drop, drop_takeWhile_length]

/-- Witness for c10_nums_clear_range_absent_key: key 7 is absent from the
demo array; clearing up to bound 4 deletes the first pair and keeps the
pair with key 4. -/
theorem c10_nums_clear_range_witness :
    nums_clear_range 7 4 (flat_pairs [(0, ⟨some "/r", none, none⟩), (4, ⟨some "/D", none, none⟩)]) =
      .ok (flat_pairs
        ([(0, ⟨some "/r", none, none⟩), (4, ⟨some "/D", none, none⟩)].dropWhile
          (fun p => decide (p.1 < 4)))) :=
  c10_nums_clear_range_absent_key [(0, ⟨some "/r", none, none⟩), (4, ⟨some "/D", none, none⟩)]
    7 4 (by decide)

end PyPdf
